import Mathlib

/-!
Verification development for the ITO event-analysis dashboard (`app.py`).

The reusable core of the repository is embedded shallowly:
* Python strings are modelled as `List Char`;
* Python `int` values as `Int` (arbitrary precision, as in Python);
* Python `float` values produced by true division as exact fractions
  (`PyFloat` below; the dashboard only divides small integer counts, where
  binary floating point is exact on every value the claims mention);
* a Python expression that can raise an exception is modelled in `Option`,
  with `none` standing for the raised exception.
-/

namespace ItoApp

/-- Membership test for a character in a string, the model of Python's
`'d' in part` (a one-character needle of `in` is a character search). -/
def pyContains (l : List Char) (c : Char) : Bool :=
  l.any (fun x => x == c)

/-- Model of Python's `str.strip()`: drop leading and trailing whitespace. -/
def pyStrip (s : List Char) : List Char :=
  ((s.dropWhile Char.isWhitespace).reverse.dropWhile Char.isWhitespace).reverse

/-- Accumulator loop behind `splitWs`: `acc` holds the reversed
characters of the field being read. -/
def splitWsAux : List Char → List Char → List (List Char)
  | [], acc => if acc = [] then [] else [acc.reverse]
  | c :: cs, acc =>
    if c.isWhitespace then
      if acc = [] then splitWsAux cs [] else acc.reverse :: splitWsAux cs []
    else splitWsAux cs (c :: acc)

/-- Model of Python's no-argument `str.split()`: split on runs of
whitespace, discarding empty fields. -/
def splitWs (l : List Char) : List (List Char) :=
  splitWsAux l []

/-- Continuation of a Python integer literal after a digit: further digits,
with single underscores allowed between digits (`int("1_0") == 10`). -/
def pyDigitsRest : List Char → Bool
  | [] => true
  | [c] => c.isDigit
  | c :: d :: ds =>
    if c.isDigit then pyDigitsRest (d :: ds)
    else if c = '_' then d.isDigit && pyDigitsRest (d :: ds)
    else false

/-- Numeric value of a digit character. -/
def digitVal (c : Char) : Nat := c.toNat - 48

/-- Value of a digit string read in base 10. -/
def digitsVal (l : List Char) : Nat :=
  l.foldl (fun a c => a * 10 + digitVal c) 0

/-- Model of Python's `int(s)` on an unsigned body: a non-empty digit
string, with single underscores allowed between digits. -/
def pyNatParse (l : List Char) : Option Nat :=
  match l with
  | [] => none
  | c :: cs =>
    if c.isDigit && pyDigitsRest cs then
      some (digitsVal ((c :: cs).filter (fun x => x ≠ '_')))
    else none

/-- Model of Python's `int(s)` for the strings this program feeds it
(tokens produced by `split()`, hence free of surrounding whitespace):
an optional sign followed by a digit body.  `none` models `ValueError`. -/
def pyInt (l : List Char) : Option Int :=
  match l with
  | [] => none
  | c :: cs =>
    if c = '+' then (pyNatParse cs).map Int.ofNat
    else if c = '-' then (pyNatParse cs).map (fun n => -Int.ofNat n)
    else (pyNatParse (c :: cs)).map Int.ofNat

/-- One iteration of the token loop of `parse_duration_to_seconds`
(`app.py` lines 122-134): the first unit letter found among `d`, `h`,
`m`, `s` (in that order) selects the multiplier, every occurrence of that
letter is removed (`part.replace(u, '')`) and the rest goes through
`int`; a token with no unit letter contributes nothing; `none` models a
`ValueError` escaping the loop body. -/
def parsePart (t : List Char) : Option Int :=
  if pyContains t 'd' then (pyInt (t.filter (fun x => x ≠ 'd'))).map (fun n => n * 86400)
  else if pyContains t 'h' then (pyInt (t.filter (fun x => x ≠ 'h'))).map (fun n => n * 3600)
  else if pyContains t 'm' then (pyInt (t.filter (fun x => x ≠ 'm'))).map (fun n => n * 60)
  else if pyContains t 's' then pyInt (t.filter (fun x => x ≠ 's'))
  else some 0

/-- Sum of token contributions; `none` as soon as one token raises,
modelling the exception aborting the whole loop. -/
def sumParts : List (List Char) → Option Int
  | [] => some 0
  | t :: ts =>
    match parsePart t, sumParts ts with
    | some v, some r => some (v + r)
    | _, _ => none

/-- Total result over a token list: the `except` handler of
`parse_duration_to_seconds` turns any raised `ValueError` into `0`. -/
def parseTokens (ts : List (List Char)) : Int :=
  (sumParts ts).getD 0

/-- Model of `parse_duration_to_seconds` (`app.py` lines 116-138):
`duration_str.strip().split()`, then the token loop, with the
`except: return 0` handler. -/
def parse_duration_to_seconds (s : List Char) : Int :=
  parseTokens (splitWs (pyStrip s))

/-- Decimal digit character. -/
def digitChar : Nat → Char
  | 0 => '0' | 1 => '1' | 2 => '2' | 3 => '3' | 4 => '4'
  | 5 => '5' | 6 => '6' | 7 => '7' | 8 => '8' | _ => '9'

/-- Fuel-indexed decimal rendering; any fuel above the value itself is
enough, so the fuel never runs out where `natRepr` uses it. -/
def natReprAux : Nat → Nat → List Char
  | 0, _ => []
  | fuel + 1, n =>
    if n < 10 then [digitChar n]
    else natReprAux fuel (n / 10) ++ [digitChar (n % 10)]

/-- Decimal rendering of a natural number, the model of Python's
`f"{n}"` for a non-negative `int`. -/
def natRepr (n : Nat) : List Char :=
  natReprAux (n + 1) n

/-- Decimal rendering of a Python `int`, sign included. -/
def intRepr (i : Int) : List Char :=
  if i < 0 then '-' :: natRepr i.natAbs else natRepr i.toNat

/-- Exact value of a Python `float` arising from true division of
integers: the fraction `num / den`.  Every constructor used below keeps
`den` positive. -/
structure PyFloat where
  num : Int
  den : Nat
deriving DecidableEq

/-- The float an `int` promotes to. -/
def PyFloat.ofInt (n : Int) : PyFloat := ⟨n, 1⟩

/-- Model of Python `a / b` on integers: `ZeroDivisionError` (`none`)
when the divisor is zero, the exact quotient otherwise. -/
def pyDiv (a : Int) (b : Nat) : Option PyFloat :=
  if b = 0 then none else some ⟨a, b⟩

/-- Comparison `q < c` of a float with an integer literal. -/
def PyFloat.ltInt (q : PyFloat) (c : Int) : Bool :=
  q.num < c * q.den

/-- Division of a float by a positive integer literal. -/
def PyFloat.divN (q : PyFloat) (k : Nat) : PyFloat := ⟨q.num, q.den * k⟩

/-- Multiplication of a float by an integer literal. -/
def PyFloat.mulInt (q : PyFloat) (k : Int) : PyFloat := ⟨q.num * k, q.den⟩

/-- Model of Python's `int(x)` on a float: truncation toward zero
(`Int` division truncates toward zero for a positive divisor). -/
def PyFloat.trunc (q : PyFloat) : Int := q.num / (q.den : Int)

/-- Floor of a float. -/
def PyFloat.floor (q : PyFloat) : Int := q.num.fdiv q.den

/-- Model of Python's `x % k` for a positive integer `k`:
`x - k * floor(x / k)`. -/
def PyFloat.modN (q : PyFloat) (k : Nat) : PyFloat :=
  ⟨q.num - (k : Int) * (q.divN k).floor * q.den, q.den⟩

/-- Model of `format_seconds_to_duration` (`app.py` lines 140-153):
renders a second count with the two largest applicable units, using the
Korean unit words `초`, `분`, `시간`, `일`. -/
def format_seconds_to_duration (seconds : PyFloat) : List Char :=
  if seconds.ltInt 60 then intRepr seconds.trunc ++ "초".toList
  else if seconds.ltInt 3600 then intRepr (seconds.divN 60).trunc ++ "분".toList
  else if seconds.ltInt 86400 then
    intRepr (seconds.divN 3600).trunc ++ "시간 ".toList ++
      intRepr ((seconds.modN 3600).divN 60).trunc ++ "분".toList
  else
    intRepr (seconds.divN 86400).trunc ++ "일 ".toList ++
      intRepr ((seconds.modN 86400).divN 3600).trunc ++ "시간".toList

/-- Loop body of `calculate_average_duration` (`app.py` lines 101-107):
a cell that is present (`pd.notna`), non-empty and parses to a strictly
positive second count is added to the running total and count. -/
def avgDurStep (a : Int × Nat) (cell : Option (List Char)) : Int × Nat :=
  match cell with
  | some s =>
    if s ≠ [] then
      if 0 < parse_duration_to_seconds s then
        (a.1 + parse_duration_to_seconds s, a.2 + 1)
      else a
    else a
  | none => a

/-- Model of `calculate_average_duration` (`app.py` lines 95-114): loop
over a column of optional duration strings (`none` models a missing /
`NaN` cell filtered by `pd.notna`), accumulate the strictly positive
parses, average and format, or return `"N/A"` when nothing qualified. -/
def calculate_average_duration (l : List (Option (List Char))) : List Char :=
  let acc := l.foldl avgDurStep (0, 0)
  if 0 < acc.2 then format_seconds_to_duration ⟨acc.1, acc.2⟩
  else "N/A".toList

/-- The entries of a duration column that are present and parse to a
strictly positive second count: the selection `calculate_average_duration`
averages, per the spec of `averageDuration`. -/
def qualifyingDurations (l : List (Option (List Char))) : List Int :=
  l.filterMap (fun c =>
    match c with
    | some s =>
      if 0 < parse_duration_to_seconds s then some (parse_duration_to_seconds s)
      else none
    | none => none)

/-- The four unit letters the parser recognises. -/
def isUnit (c : Char) : Bool :=
  c = 'd' || c = 'h' || c = 'm' || c = 's'

/-- Seconds denoted by one unit letter. -/
def unitVal (c : Char) : Int :=
  if c = 'd' then 86400 else if c = 'h' then 3600 else if c = 'm' then 60 else 1

/-- Join a list of tokens with single spaces, producing a
whitespace-separated string of those tokens. -/
def joinSp : List (List Char) → List Char
  | [] => []
  | [t] => t
  | t :: ts => t ++ ' ' :: joinSp ts

/-- Modelled from the spec: a second count truncated to its two largest
applicable units — the bucket of the spec's round-trip property
(seconds alone under a minute; whole minutes under an hour; hours and
minutes under a day; days and hours otherwise). -/
def specTwoUnitTrunc (q : PyFloat) : Int :=
  if q.ltInt 60 then q.trunc
  else if q.ltInt 3600 then 60 * (q.divN 60).trunc
  else if q.ltInt 86400 then
    3600 * (q.divN 3600).trunc + 60 * ((q.modN 3600).divN 60).trunc
  else
    86400 * (q.divN 86400).trunc + 3600 * ((q.modN 86400).divN 3600).trunc

/-! ### Rendering helpers for the report (Python format specifiers) -/

/-- Comma-grouping loop over a reversed digit string (`f"{n:,}"`). -/
def commaRev : List Char → List Char
  | a :: b :: c :: d :: rest => a :: b :: c :: ',' :: commaRev (d :: rest)
  | l => l

/-- Model of Python's `f"{n:,}"` on a natural number. -/
def natReprComma (n : Nat) : List Char :=
  (commaRev (natRepr n).reverse).reverse

/-- Model of Python's `f"{n:2d}"`: right-justified in width two. -/
def padW2 (n : Nat) : List Char :=
  if n < 10 then ' ' :: natRepr n else natRepr n

/-- Model of Python's `f"{n:02d}"`: zero-padded to width two. -/
def pad2 (n : Nat) : List Char :=
  if n < 10 then '0' :: natRepr n else natRepr n

/-- Zero-padded four-digit year of `strftime('%Y')`. -/
def pad4 (n : Nat) : List Char :=
  if n < 10 then '0' :: '0' :: '0' :: natRepr n
  else if n < 100 then '0' :: '0' :: natRepr n
  else if n < 1000 then '0' :: natRepr n
  else natRepr n

/-- Round `a / d` (for `d > 0`) to the nearest integer, ties to even:
the rounding Python's `format` applies per decimal place. -/
def rheDiv (a : Int) (d : Nat) : Int :=
  let f := a.fdiv d
  let r2 := 2 * (a - f * d)
  if r2 < d then f
  else if (d : Int) < r2 then f + 1
  else if f % 2 = 0 then f else f + 1

/-- Model of Python's `f"{x:.1f}"` on an exact float value. -/
def format1dp (q : PyFloat) : List Char :=
  let n := rheDiv (q.num * 10) q.den
  if n < 0 then '-' :: (natRepr (n.natAbs / 10) ++ '.' :: natRepr (n.natAbs % 10))
  else natRepr (n.toNat / 10) ++ '.' :: natRepr (n.toNat % 10)

/-! ### The tabular event data

A pandas dataframe of event rows is modelled column-wise: a column is
either absent (`none`) or a list of per-row cells, a cell being `none`
for a missing (`NaN`) value.  The `Time` column is modelled after
`pd.to_datetime` has succeeded on it, so its cells are calendar
timestamps. -/

/-- A parsed timestamp (the value class of `pd.to_datetime`). -/
structure PyDateTime where
  year : Nat
  month : Nat
  day : Nat
  hour : Nat
  minute : Nat
  second : Nat
deriving DecidableEq

/-- Days from 1970-01-01 of a civil date (proleptic Gregorian),
computed era by era as datetime libraries do. -/
def daysFromCivil (y0 : Int) (m d : Nat) : Int :=
  let y : Int := if m ≤ 2 then y0 - 1 else y0
  let era : Int := y.fdiv 400
  let yoe : Int := y - era * 400
  let mp : Int := ((m : Int) + 9) % 12
  let doy : Int := (153 * mp + 2).fdiv 5 + d - 1
  let doe : Int := yoe * 365 + yoe.fdiv 4 - yoe.fdiv 100 + doy
  era * 146097 + doe - 719468

/-- Seconds from the epoch; timestamp comparison and subtraction go
through this value. -/
def epochOf (t : PyDateTime) : Int :=
  daysFromCivil (t.year : Int) t.month t.day * 86400
    + t.hour * 3600 + t.minute * 60 + t.second

/-- Model of `strftime('%Y-%m-%d %H:%M')`. -/
def strftimeMinute (t : PyDateTime) : List Char :=
  pad4 t.year ++ "-".toList ++ pad2 t.month ++ "-".toList ++ pad2 t.day
    ++ " ".toList ++ pad2 t.hour ++ ":".toList ++ pad2 t.minute

/-- Model of `strftime('%Y-%m-%d %H:%M:%S')`. -/
def strftimeSecond (t : PyDateTime) : List Char :=
  strftimeMinute t ++ ":".toList ++ pad2 t.second

/-- The EventSet: the columns `generate_report` reads, plus the row
count `len(df)`.  A well-formed set has every present column of length
`nRows`. -/
structure EventSet where
  severityCol : Option (List (Option (List Char)))
  statusCol : Option (List (Option (List Char)))
  hostCol : Option (List (Option (List Char)))
  descriptionCol : Option (List (Option (List Char)))
  durationCol : Option (List (Option (List Char)))
  timeCol : Option (List PyDateTime)
  nRows : Nat
deriving DecidableEq

/-- Model of Python's `str.lower()` (the severity keywords it is
compared against are pure ASCII). -/
def pyLower (s : List Char) : List Char := s.map Char.toLower

/-- Severity keywords of the "critical" band (`app.py` line 469). -/
def criticalKeywords : List (List Char) :=
  ["disaster".toList, "high".toList, "fatal".toList, "critical".toList, "error".toList]

/-- Severity keywords of the "warning" band (`app.py` line 470). -/
def warningKeywords : List (List Char) :=
  ["average".toList, "warning".toList, "major".toList, "medium".toList]

/-- Severity keywords of the "informational" band (`app.py` line 471). -/
def infoKeywords : List (List Char) :=
  ["information".toList, "info".toList, "low".toList, "not classified".toList]

/-- Model of `df[severity_col].str.lower().isin(kws)` on one cell: a
missing value is in no band. -/
def inBand (kws : List (List Char)) (cell : Option (List Char)) : Bool :=
  match cell with
  | some s => decide (pyLower s ∈ kws)
  | none => false

/-- Count of critical-band rows (`app.py` lines 468-469, 473). -/
def critical_events (es : EventSet) : Nat :=
  match es.severityCol with
  | some col => col.countP (inBand criticalKeywords)
  | none => 0

/-- Count of warning-band rows (`app.py` lines 470, 474). -/
def warning_events (es : EventSet) : Nat :=
  match es.severityCol with
  | some col => col.countP (inBand warningKeywords)
  | none => 0

/-- Count of informational-band rows (`app.py` lines 471, 475). -/
def info_events (es : EventSet) : Nat :=
  match es.severityCol with
  | some col => col.countP (inBand infoKeywords)
  | none => 0

/-- Modelled from the spec: the fourth severity band, "unclassified"
(severity column absent, or value in none of the three keyword lists).
The code never computes this count; the spec defines it as the
remainder of the partition. -/
def unclassified_events (es : EventSet) : Nat :=
  match es.severityCol with
  | some col => col.countP (fun c =>
      !(inBand criticalKeywords c || inBand warningKeywords c || inBand infoKeywords c))
  | none => es.nRows

/-- Count of rows whose `Status` cell equals `PROBLEM` (`app.py` line 477). -/
def problem_events (es : EventSet) : Nat :=
  match es.statusCol with
  | some col => col.countP (fun c => c == some "PROBLEM".toList)
  | none => 0

/-- Count of rows whose `Status` cell equals `OK` (`app.py` line 478). -/
def ok_events (es : EventSet) : Nat :=
  match es.statusCol with
  | some col => col.countP (fun c => c == some "OK".toList)
  | none => 0

/-- Model of `df['Host'].nunique()`: distinct non-missing hosts
(`app.py` line 480). -/
def unique_hosts (es : EventSet) : Nat :=
  match es.hostCol with
  | some col => (col.filterMap id).eraseDups.length
  | none => 0

/-- Model of `Series.value_counts()`: distinct non-missing values with
their multiplicities, sorted by count descending; the sort is stable,
so ties stay in first-encountered order. -/
def valueCounts (l : List (List Char)) : List (List Char × Nat) :=
  List.insertionSort (fun a b => b.2 ≤ a.2)
    (l.eraseDups.map (fun k => (k, l.count k)))

/-- Model of `df['Host'].value_counts().head(10)` (`app.py` line 481). -/
def top_hosts (es : EventSet) : List (List Char × Nat) :=
  match es.hostCol with
  | some col => (valueCounts (col.filterMap id)).take 10
  | none => []

/-- Model of `df['Description'].value_counts().head(15)` (`app.py`
line 518). -/
def top_issues (es : EventSet) : List (List Char × Nat) :=
  match es.descriptionCol with
  | some col => (valueCounts (col.filterMap id)).take 15
  | none => []

/-- Model of an integer-keyed `groupby(...).size()`: distinct keys in
ascending order with their multiplicities. -/
def groupSizes (l : List Int) : List (Int × Nat) :=
  (List.insertionSort (fun a b => a ≤ b) l.eraseDups).map (fun k => (k, l.count k))

/-- Model of `Series.idxmax()`: the first key attaining the maximal
count, `none` on an empty series (where pandas raises). -/
def idxmaxG (g : List (Int × Nat)) : Option Int :=
  match g with
  | [] => none
  | p :: ps => some ((ps.foldl (fun best q => if best.2 < q.2 then q else best) p).1)

/-- Model of `Series.nlargest(5)`: the five largest counts, ties kept
in index order (stable sort). -/
def nlargest5 (g : List (Int × Nat)) : List (Int × Nat) :=
  (List.insertionSort (fun a b => b.2 ≤ a.2) g).take 5

/-- The values the time block of `generate_report` computes
(`app.py` lines 484-504). -/
structure TimeInfo where
  timeRange : List Char
  totalDays : Nat
  peakHourStr : List Char
  dailyAvg : PyFloat
  dailyMax : Nat
  dailyMin : Nat
  hourlyDist : List (Int × Nat)
deriving DecidableEq

/-- Time block of `generate_report` (`app.py` lines 484-504).  With a
`Time` column and zero rows, `df['Time'].min()` is `NaT` and
`NaT.strftime` raises (`none`); without the column the block takes the
`N/A` defaults of lines 497-504. -/
def timeInfo (es : EventSet) : Option TimeInfo :=
  match es.timeCol with
  | none => some ⟨"N/A".toList, 0, "N/A".toList, PyFloat.ofInt 0, 0, 0, []⟩
  | some tcol =>
    match tcol with
    | [] => none
    | t0 :: ts =>
      let minT := ts.foldl (fun a b => if epochOf b < epochOf a then b else a) t0
      let maxT := ts.foldl (fun a b => if epochOf a < epochOf b then b else a) t0
      let tr := strftimeMinute minT ++ " ~ ".toList ++ strftimeMinute maxT
      let totalDays := ((epochOf maxT - epochOf minT).fdiv 86400).toNat + 1
      let hourG := groupSizes (tcol.map (fun t => (t.hour : Int)))
      let peakStr := match idxmaxG hourG with
        | some h => intRepr h
        | none => "N/A".toList
      let dayG := groupSizes (tcol.map (fun t => daysFromCivil (t.year : Int) t.month t.day))
      let sizes : List Nat := dayG.map (fun p => p.2)
      let dailyMin := match sizes with
        | [] => 0
        | a :: r => r.foldl min a
      some ⟨tr, totalDays, peakStr, ⟨(sizes.sum : Int), dayG.length⟩,
        sizes.foldl max 0, dailyMin, hourG⟩

/-- Duration block of `generate_report` (`app.py` lines 506-515): parse
every `Duration` cell (a missing cell parses to 0 through the handler),
keep the strictly positive parses, average and maximise; `N/A` when the
column is absent or nothing is positive. -/
def durationStrings (es : EventSet) : List Char × List Char :=
  match es.durationCol with
  | none => ("N/A".toList, "N/A".toList)
  | some col =>
    let secs := col.map (fun c => match c with
      | some s => parse_duration_to_seconds s
      | none => (0 : Int))
    let pos := secs.filter (fun v => decide (0 < v))
    match pos with
    | [] => ("N/A".toList, "N/A".toList)
    | a :: r =>
      (format_seconds_to_duration ⟨pos.sum, pos.length⟩,
       format_seconds_to_duration (PyFloat.ofInt (r.foldl max a)))

/-- One line of the top-host loop (`app.py` lines 549-551), percentage
division included. -/
def hostLine (total : Nat) (ip : Nat × (List Char × Nat)) : Option (List Char) :=
  (pyDiv (ip.2.2 : Int) total).map (fun q =>
    "  ".toList ++ padW2 (ip.1 + 1) ++ ". ".toList ++ ip.2.1 ++ ": ".toList ++
      natReprComma ip.2.2 ++ "건 (".toList ++ format1dp (q.mulInt 100) ++ "%)\n".toList)

/-- One hour of the busiest-hours list (`app.py` lines 563-566). -/
def hourLine (p : Int × Nat) : List Char :=
  "  - ".toList ++ pad2 p.1.toNat ++ "시: ".toList ++ natReprComma p.2 ++ "건\n".toList

/-- One entry of the top-issue loop (`app.py` lines 571-574): the
description truncated to 100 characters with an ellipsis marker, then
the count line with its percentage division. -/
def issueLine (total : Nat) (ip : Nat × (List Char × Nat)) : Option (List Char) :=
  (pyDiv (ip.2.2 : Int) total).map (fun q =>
    padW2 (ip.1 + 1) ++ ". ".toList ++ ip.2.1.take 100 ++
      (if 100 < ip.2.1.length then "...".toList else []) ++ "\n".toList ++
      "    - 발생 횟수: ".toList ++ natReprComma ip.2.2 ++ "건 (".toList ++
      format1dp (q.mulInt 100) ++ "%)\n".toList)

/-- One row of the summary table: (항목, 값, 비율). -/
abbrev SummaryRow := List Char × List Char × List Char

/-- Everything `generate_report` computes from the EventSet alone
(`app.py` lines 454-578 and 599-603): the report text minus its
timestamped header, and the CSV summary table.  `none` models an
uncaught exception — `generate_report` has no handler, so a raised
`ZeroDivisionError` or `ValueError` aborts report generation. -/
def reportCore (es : EventSet) :
    Option (List Char × List SummaryRow) := do
  let total := es.nRows
  let ce := critical_events es
  let we := warning_events es
  let ie := info_events es
  let pe := problem_events es
  let oke := ok_events es
  let uh := unique_hosts es
  let ths := top_hosts es
  let ti ← timeInfo es
  let ds := durationStrings es
  let tis := top_issues es
  let pc ← pyDiv (ce : Int) total
  let pw ← pyDiv (we : Int) total
  let pinfo ← pyDiv (ie : Int) total
  let aph ← pyDiv (total : Int) uh
  let hls ← ths.enum.mapM (hostLine total)
  let ils ← tis.enum.mapM (issueLine total)
  let text :=
    "분석 기간: ".toList ++ ti.timeRange ++
    "\n총 분석 일수: ".toList ++ natRepr ti.totalDays ++
    "일\n\n".toList ++ List.replicate 80 '=' ++
    "\n\n## 📊 전체 요약\n- 총 이벤트 수: ".toList
    ++ natReprComma total ++
    "\n- 일평균 이벤트: ".toList ++ format1dp ti.dailyAvg ++
    "건\n- 일 최대 이벤트: ".toList ++ natReprComma ti.dailyMax ++
    "건\n- 일 최소 이벤트: ".toList ++ natReprComma ti.dailyMin ++
    "건\n\n## 🚨 심각도 분석\n- 심각 이벤트 (Fatal/Critical/High): ".toList ++
    natReprComma ce ++ "건 (".toList ++ format1dp (pc.mulInt 100) ++
    "%)\n- 경고 이벤트 (Major/Average/Warning): ".toList ++
    natReprComma we ++ "건 (".toList ++ format1dp (pw.mulInt 100) ++
    "%)\n- 정보 이벤트 (Information/Low): ".toList ++
    natReprComma ie ++ "건 (".toList ++ format1dp (pinfo.mulInt 100) ++
    "%)\n- 해결된 이벤트 (OK): ".toList ++ natReprComma oke ++
    "건\n- 문제 이벤트 (PROBLEM): ".toList ++ natReprComma pe ++
    "건\n\n## 🖥️ 호스트 분석\n- 영향받은 호스트 수: ".toList ++ natRepr uh ++
    "개\n- 호스트당 평균 이벤트: ".toList ++ format1dp aph ++
    "건\n\n### 가장 많은 이벤트 발생 호스트 Top 10:\n".toList ++
    hls.flatten ++
    "\n## ⏰ 시간 분석\n- 피크 시간대: ".toList ++ ti.peakHourStr ++
    "시\n- 평균 이벤트 지속 시간: ".toList ++ ds.1 ++
    "\n- 최대 이벤트 지속 시간: ".toList ++ ds.2 ++
    "\n\n### 시간대별 이벤트 분포:\n".toList ++
    ((nlargest5 ti.hourlyDist).map hourLine).flatten ++
    "\n## 🚨 주요 문제 (Top 15)\n".toList ++
    ils.flatten ++
    "\n".toList ++ List.replicate 80 '=' ++ "\n".toList
  let table : List SummaryRow := [
    ("총 이벤트".toList, natReprComma total, "-".toList),
    ("일평균 이벤트".toList, format1dp ti.dailyAvg, "-".toList),
    ("심각 이벤트".toList, natReprComma ce, format1dp (pc.mulInt 100) ++ "%".toList),
    ("경고 이벤트".toList, natReprComma we, format1dp (pw.mulInt 100) ++ "%".toList),
    ("정보 이벤트".toList, natReprComma ie, format1dp (pinfo.mulInt 100) ++ "%".toList),
    ("영향 호스트".toList, natRepr uh, "-".toList)]
  pure (text, table)

/-- Timestamped first lines of the report text (`app.py` lines 521-523):
the header embeds `datetime.now()`. -/
def reportHeader (now : PyDateTime) : List Char :=
  "# ITO 이벤트 종합 리포트\n        \n생성일시: ".toList ++ strftimeSecond now ++ "\n".toList

/-- Model of `generate_report` (`app.py` lines 439-611) restricted to
its two data products: the report text (header with the generation
timestamp `now`, then the body) and the CSV summary table. -/
def generate_report (now : PyDateTime) (es : EventSet) :
    Option (List Char × List SummaryRow) :=
  (reportCore es).map (fun c => (reportHeader now ++ c.1, c.2))

/-- The spec's four-row scenario: severities Disaster, Warning, Warning,
Information and no other columns. -/
def exampleSeveritySet : EventSet :=
  ⟨some [some "Disaster".toList, some "Warning".toList, some "Warning".toList,
    some "Information".toList], none, none, none, none, none, 4⟩

/-- A zero-row EventSet: every data column present but empty (a
header-only CSV without a Time column). -/
def zeroRowEventSet : EventSet :=
  ⟨some [], some [], some [], some [], some [], none, 0⟩

/-- A one-row EventSet whose Host column is absent. -/
def noHostEventSet : EventSet :=
  ⟨some [some "disaster".toList], none, none, none, none, none, 1⟩

/-- A one-row EventSet with severity and host columns, on which report
generation succeeds. -/
def demoEventSet : EventSet :=
  ⟨some [some "disaster".toList], none, some [some "web01".toList], none, none, none, 1⟩

end ItoApp

namespace ItoApp

/-! ### Character and token lemmas -/

theorem pyContains_iff (t : List Char) (c : Char) : pyContains t c = true ↔ c ∈ t := by
  simp [pyContains]

theorem pyContains_eq_false (t : List Char) (c : Char) (h : c ∉ t) :
    pyContains t c = false := by
  rw [Bool.eq_false_iff]
  intro hc
  exact h ((pyContains_iff t c).mp hc)

theorem pyContains_eq_true (t : List Char) (c : Char) (h : c ∈ t) :
    pyContains t c = true := (pyContains_iff t c).mpr h

theorem splitWsAux_chars (l : List Char) :
    ∀ acc t, t ∈ splitWsAux l acc → ∀ c, c ∈ t → c ∈ l ∨ c ∈ acc := by
  induction l with
  | nil =>
    intro acc t ht c hc
    unfold splitWsAux at ht
    split at ht
    · simp at ht
    · rw [List.mem_singleton] at ht
      subst ht
      exact Or.inr (List.mem_reverse.mp hc)
  | cons a l ih =>
    intro acc t ht c hc
    unfold splitWsAux at ht
    split at ht
    · split at ht
      · rcases ih [] t ht c hc with h | h
        · exact Or.inl (List.mem_cons_of_mem _ h)
        · simp at h
      · rcases List.mem_cons.mp ht with h | h
        · subst h
          exact Or.inr (List.mem_reverse.mp hc)
        · rcases ih [] t h c hc with h2 | h2
          · exact Or.inl (List.mem_cons_of_mem _ h2)
          · simp at h2
    · rcases ih (a :: acc) t ht c hc with h | h
      · exact Or.inl (List.mem_cons_of_mem _ h)
      · rcases List.mem_cons.mp h with h2 | h2
        · subst h2
          exact Or.inl (List.mem_cons_self _ _)
        · exact Or.inr h2

theorem splitWs_chars (l : List Char) (t : List Char) (ht : t ∈ splitWs l)
    (c : Char) (hc : c ∈ t) : c ∈ l := by
  rcases splitWsAux_chars l [] t ht c hc with h | h
  · exact h
  · simp at h

theorem pyStrip_chars (s : List Char) (c : Char) (h : c ∈ pyStrip s) : c ∈ s := by
  unfold pyStrip at h
  rw [List.mem_reverse] at h
  have h2 := (List.dropWhile_sublist _).mem h
  rw [List.mem_reverse] at h2
  exact (List.dropWhile_sublist _).mem h2

theorem parse_chars (s : List Char) (t : List Char)
    (ht : t ∈ splitWs (pyStrip s)) (c : Char) (hc : c ∈ t) : c ∈ s :=
  pyStrip_chars s c (splitWs_chars (pyStrip s) t ht c hc)

/-! ### Leniency and sign behaviour of the token parser -/

theorem parsePart_no_unit (t : List Char) (h : ∀ c ∈ t, isUnit c = false) :
    parsePart t = some 0 := by
  have hu : ∀ u : Char, isUnit u = true → u ∉ t := by
    intro u hu hmem
    rw [h u hmem] at hu
    exact Bool.false_ne_true hu
  unfold parsePart
  rw [pyContains_eq_false t 'd' (hu 'd' (by decide)),
    pyContains_eq_false t 'h' (hu 'h' (by decide)),
    pyContains_eq_false t 'm' (hu 'm' (by decide)),
    pyContains_eq_false t 's' (hu 's' (by decide))]
  rfl

theorem sumParts_none (ts : List (List Char)) (t : List Char) (ht : t ∈ ts)
    (hp : parsePart t = none) : sumParts ts = none := by
  induction ts with
  | nil => simp at ht
  | cons u ts ih =>
    rcases List.mem_cons.mp ht with h | h
    · subst h
      unfold sumParts
      rw [hp]
    · unfold sumParts
      rw [ih h]
      cases parsePart u <;> rfl

theorem sumParts_cons (t : List Char) (ts : List (List Char)) :
    sumParts (t :: ts) = match parsePart t, sumParts ts with
      | some v, some r => some (v + r)
      | _, _ => none := rfl

theorem sumParts_middle_zero (pre post : List (List Char)) (t : List Char)
    (hp : parsePart t = some 0) :
    sumParts (pre ++ t :: post) = sumParts (pre ++ post) := by
  induction pre with
  | nil =>
    simp only [List.nil_append]
    rw [sumParts_cons, hp]
    cases sumParts post
    · rfl
    · simp
  | cons u pre ih =>
    simp only [List.cons_append]
    rw [sumParts_cons, sumParts_cons, ih]

theorem pyInt_nonneg (l : List Char) (h : ∀ c ∈ l, c ≠ '-') (v : Int)
    (hv : pyInt l = some v) : 0 ≤ v := by
  cases l with
  | nil => simp [pyInt] at hv
  | cons c cs =>
    simp only [pyInt] at hv
    split_ifs at hv with h1 h2
    · rcases Option.map_eq_some'.mp hv with ⟨n, _, rfl⟩
      exact Int.ofNat_nonneg n
    · exact absurd h2 (h c (List.mem_cons_self _ _))
    · rcases Option.map_eq_some'.mp hv with ⟨n, _, rfl⟩
      exact Int.ofNat_nonneg n

theorem parsePart_nonneg (t : List Char) (h : ∀ c ∈ t, c ≠ '-') (v : Int)
    (hv : parsePart t = some v) : 0 ≤ v := by
  have hf : ∀ u : Char, ∀ c ∈ t.filter (fun x => x ≠ u), c ≠ '-' :=
    fun u c hc => h c (List.mem_of_mem_filter hc)
  unfold parsePart at hv
  split_ifs at hv
  · rcases Option.map_eq_some'.mp hv with ⟨w, hw, rfl⟩
    exact mul_nonneg (pyInt_nonneg _ (hf 'd') w hw) (by norm_num)
  · rcases Option.map_eq_some'.mp hv with ⟨w, hw, rfl⟩
    exact mul_nonneg (pyInt_nonneg _ (hf 'h') w hw) (by norm_num)
  · rcases Option.map_eq_some'.mp hv with ⟨w, hw, rfl⟩
    exact mul_nonneg (pyInt_nonneg _ (hf 'm') w hw) (by norm_num)
  · exact pyInt_nonneg _ (hf 's') v hv
  · rw [Option.some_inj] at hv
    omega

theorem sumParts_nonneg :
    ∀ ts : List (List Char), (∀ t ∈ ts, ∀ c ∈ t, c ≠ '-') →
      ∀ v : Int, sumParts ts = some v → 0 ≤ v := by
  intro ts
  induction ts with
  | nil =>
    intro _ v hv
    rw [show sumParts [] = some 0 from rfl, Option.some_inj] at hv
    omega
  | cons t ts ih =>
    intro h v hv
    unfold sumParts at hv
    cases hp : parsePart t with
    | none => rw [hp] at hv; simp at hv
    | some w =>
      rw [hp] at hv
      cases hs : sumParts ts with
      | none => rw [hs] at hv; simp at hv
      | some r =>
        rw [hs, Option.some_inj] at hv
        have hw := parsePart_nonneg t (h t (List.mem_cons_self _ _)) w hp
        have hr := ih (fun t' ht' => h t' (List.mem_cons_of_mem _ ht')) r hs
        omega

theorem parseTokens_nonneg (ts : List (List Char))
    (h : ∀ t ∈ ts, ∀ c ∈ t, c ≠ '-') : 0 ≤ parseTokens ts := by
  unfold parseTokens
  cases hs : sumParts ts with
  | none => simp
  | some v => simpa using sumParts_nonneg ts h v hs

/-! ### Claims C3, C6, C10 about the duration parser -/

/-- Claim C3, counterexample: a malformed token is not always silently
skipped.  The token `xd` contains the unit letter `d` but no integer, so
its `ValueError` reaches the handler and the whole call returns 0 — the
well-formed token `1h` of the same input, worth 3600 on its own, loses
its contribution. -/
theorem c3_counterexample :
    parse_duration_to_seconds "1h xd".toList = 0 ∧
      parse_duration_to_seconds "1h".toList = 3600 := by
  decide

/-- Claim C3, amended: a token containing none of the four unit letters
is silently skipped — it contributes nothing and leaves every other
token's contribution unchanged.  (A token that contains a unit letter
but fails integer conversion instead zeroes the entire result, and a
negative integer before a unit letter contributes negatively.) -/
theorem c3_unitless_token_skipped (pre post : List (List Char)) (t : List Char)
    (h : ∀ c ∈ t, isUnit c = false) :
    parseTokens (pre ++ t :: post) = parseTokens (pre ++ post) := by
  unfold parseTokens
  rw [sumParts_middle_zero pre post t (parsePart_no_unit t h)]

theorem c3_witness :
    (∀ c ∈ "garbage".toList, isUnit c = false) ∧
      parseTokens (["1h".toList] ++ "garbage".toList :: []) =
        parseTokens (["1h".toList] ++ []) :=
  ⟨by decide, c3_unitless_token_skipped ["1h".toList] [] "garbage".toList (by decide)⟩

/-- Claim C6, counterexample: the parser's result can be negative.  The
token `-5m` passes `int("-5")` and contributes `-300`, so
`parse_duration_to_seconds "-5m" = -300 < 0`. -/
theorem c6_counterexample :
    parse_duration_to_seconds "-5m".toList = -300 ∧
      parse_duration_to_seconds "-5m".toList < 0 := by
  decide

/-- Claim C6, amended: the result is non-negative for every input that
contains no minus sign (in particular for empty, unparseable, and
well-formed inputs); a `-` before a unit letter can make it negative. -/
theorem c6_nonneg_without_minus (s : List Char) (h : '-' ∉ s) :
    0 ≤ parse_duration_to_seconds s := by
  unfold parse_duration_to_seconds
  refine parseTokens_nonneg _ ?_
  intro t ht c hc he
  exact h (he ▸ parse_chars s t ht c hc)

theorem c6_witness :
    ('-' ∉ "1h 30m".toList) ∧ 0 ≤ parse_duration_to_seconds "1h 30m".toList :=
  ⟨by decide, c6_nonneg_without_minus "1h 30m".toList (by decide)⟩

/-- Claim C10: the duration parser is total — the embedding returns an
integer for every string, the `except` handler standing in for any
raised exception — and it is all-or-nothing on malformed tokens: as soon
as one token's branch raises (`parsePart t = none`, which happens
exactly when `t` contains a recognized unit letter and the remaining
characters fail integer conversion), the result for the entire input is
0, every other token's contribution discarded. -/
theorem c10_all_or_nothing (s t : List Char)
    (ht : t ∈ splitWs (pyStrip s)) (hp : parsePart t = none) :
    parse_duration_to_seconds s = 0 := by
  unfold parse_duration_to_seconds parseTokens
  rw [sumParts_none _ t ht hp]
  rfl

theorem c10_witness :
    ("xd".toList ∈ splitWs (pyStrip "1h xd".toList)) ∧
      parsePart "xd".toList = none ∧
      parse_duration_to_seconds "1h xd".toList = 0 :=
  ⟨by decide, by decide,
    c10_all_or_nothing "1h xd".toList "xd".toList (by decide) (by decide)⟩

/-! ### Splitting a space-joined token list recovers the tokens -/

theorem splitWsAux_nil_eq (acc : List Char) :
    splitWsAux [] acc = if acc = [] then [] else [acc.reverse] := rfl

theorem splitWsAux_cons (c : Char) (cs acc : List Char) :
    splitWsAux (c :: cs) acc =
      if c.isWhitespace then
        (if acc = [] then splitWsAux cs [] else acc.reverse :: splitWsAux cs [])
      else splitWsAux cs (c :: acc) := rfl

theorem splitWsAux_cons_ws (c : Char) (cs acc : List Char) (h : c.isWhitespace = true) :
    splitWsAux (c :: cs) acc =
      if acc = [] then splitWsAux cs [] else acc.reverse :: splitWsAux cs [] := by
  rw [splitWsAux_cons, h]
  simp

theorem splitWsAux_cons_nws (c : Char) (cs acc : List Char) (h : c.isWhitespace = false) :
    splitWsAux (c :: cs) acc = splitWsAux cs (c :: acc) := by
  rw [splitWsAux_cons, h]
  simp

theorem splitWsAux_append_nonws (t : List Char) :
    ∀ l' acc, (∀ c ∈ t, c.isWhitespace = false) →
      splitWsAux (t ++ l') acc = splitWsAux l' (t.reverse ++ acc) := by
  induction t with
  | nil => intro l' acc _; simp
  | cons a t ih =>
    intro l' acc h
    rw [List.cons_append,
      splitWsAux_cons_nws a (t ++ l') acc (h a (List.mem_cons_self _ _)),
      ih l' (a :: acc) (fun c hc => h c (List.mem_cons_of_mem _ hc))]
    simp [List.append_assoc]

theorem splitWs_single (t : List Char) (h : ∀ c ∈ t, c.isWhitespace = false)
    (hne : t ≠ []) : splitWs t = [t] := by
  unfold splitWs
  have h0 := splitWsAux_append_nonws t [] [] h
  rw [List.append_nil, List.append_nil] at h0
  rw [h0, splitWsAux_nil_eq]
  simp [hne]

theorem splitWs_token (t : List Char) (h : ∀ c ∈ t, c.isWhitespace = false)
    (hne : t ≠ []) (rest : List Char) :
    splitWsAux (t ++ ' ' :: rest) [] = t :: splitWsAux rest [] := by
  rw [splitWsAux_append_nonws t (' ' :: rest) [] h, List.append_nil,
    splitWsAux_cons_ws ' ' rest t.reverse (by decide)]
  simp [hne]

theorem joinSp_cons_cons (t u : List Char) (ts : List (List Char)) :
    joinSp (t :: u :: ts) = t ++ ' ' :: joinSp (u :: ts) := rfl

theorem splitWs_joinSp (ts : List (List Char))
    (h : ∀ t ∈ ts, t ≠ [] ∧ ∀ c ∈ t, c.isWhitespace = false) :
    splitWs (joinSp ts) = ts := by
  induction ts with
  | nil => rfl
  | cons t ts ih =>
    cases ts with
    | nil =>
      exact splitWs_single t (h t (List.mem_cons_self _ _)).2
        (h t (List.mem_cons_self _ _)).1
    | cons u ts2 =>
      rw [joinSp_cons_cons]
      unfold splitWs
      rw [splitWs_token t (h t (List.mem_cons_self _ _)).2
        (h t (List.mem_cons_self _ _)).1 (joinSp (u :: ts2))]
      have ih2 := ih (fun t' ht' => h t' (List.mem_cons_of_mem _ ht'))
      unfold splitWs at ih2
      rw [ih2]

theorem dropWhile_eq_self_head (p : Char → Bool) (l : List Char)
    (h : ∀ c, l.head? = some c → p c = false) : l.dropWhile p = l := by
  cases l with
  | nil => rfl
  | cons a l =>
    rw [List.dropWhile_cons, h a rfl]
    simp

theorem pyStrip_eq_self (l : List Char)
    (h1 : ∀ c, l.head? = some c → c.isWhitespace = false)
    (h2 : ∀ c, l.getLast? = some c → c.isWhitespace = false) :
    pyStrip l = l := by
  unfold pyStrip
  rw [dropWhile_eq_self_head _ l h1,
    dropWhile_eq_self_head _ l.reverse
      (fun c hc => h2 c (by rwa [List.head?_reverse] at hc))]
  exact List.reverse_reverse l

theorem joinSp_ne_nil (t : List Char) (ts : List (List Char)) (hne : t ≠ []) :
    joinSp (t :: ts) ≠ [] := by
  cases ts with
  | nil => exact hne
  | cons u ts2 =>
    rw [joinSp_cons_cons]
    intro hx
    exact absurd (List.append_eq_nil.mp hx).2 (by simp)

theorem joinSp_head_nonws (ts : List (List Char))
    (h : ∀ t ∈ ts, t ≠ [] ∧ ∀ c ∈ t, c.isWhitespace = false) :
    ∀ c, (joinSp ts).head? = some c → c.isWhitespace = false := by
  cases ts with
  | nil => intro c hc; simp [joinSp] at hc
  | cons t ts2 =>
    obtain ⟨hne, hnws⟩ := h t (List.mem_cons_self _ _)
    cases t with
    | nil => exact absurd rfl hne
    | cons a t2 =>
      intro c hc
      have ha : (joinSp ((a :: t2) :: ts2)).head? = some a := by
        cases ts2 with
        | nil => rfl
        | cons u ts3 => rfl
      rw [ha, Option.some_inj] at hc
      exact hc ▸ hnws a (List.mem_cons_self _ _)

theorem joinSp_getLast_nonws (ts : List (List Char))
    (h : ∀ t ∈ ts, t ≠ [] ∧ ∀ c ∈ t, c.isWhitespace = false) :
    ∀ c, (joinSp ts).getLast? = some c → c.isWhitespace = false := by
  induction ts with
  | nil => intro c hc; simp [joinSp] at hc
  | cons t ts2 ih =>
    cases ts2 with
    | nil =>
      intro c hc
      have hcm : c ∈ t := by
        rcases List.mem_getLast?_eq_getLast (Option.mem_def.mpr hc) with ⟨h', he⟩
        exact he ▸ List.getLast_mem h'
      exact (h t (List.mem_cons_self _ _)).2 c hcm
    | cons u ts3 =>
      intro c hc
      rw [joinSp_cons_cons, List.append_cons,
        List.getLast?_append_of_ne_nil _
          (joinSp_ne_nil u ts3 (h u (List.mem_cons_of_mem _ (List.mem_cons_self _ _))).1)] at hc
      exact ih (fun t' ht' => h t' (List.mem_cons_of_mem _ ht')) c hc

theorem pyStrip_joinSp (ts : List (List Char))
    (h : ∀ t ∈ ts, t ≠ [] ∧ ∀ c ∈ t, c.isWhitespace = false) :
    pyStrip (joinSp ts) = joinSp ts :=
  pyStrip_eq_self _ (joinSp_head_nonws ts h) (joinSp_getLast_nonws ts h)

/-! ### Digit strings parse to their decimal value -/

theorem isDigit_not_unit (c : Char) (h : c.isDigit = true) : isUnit c = false := by
  by_contra hc
  rw [Bool.not_eq_false] at hc
  have h4 : c = 'd' ∨ c = 'h' ∨ c = 'm' ∨ c = 's' := by
    simpa [isUnit, Bool.or_eq_true, decide_eq_true_eq, or_assoc] using hc
  rcases h4 with rfl | rfl | rfl | rfl <;> exact absurd h (by decide)

theorem isDigit_not_ws (c : Char) (h : c.isDigit = true) : c.isWhitespace = false := by
  by_contra hc
  rw [Bool.not_eq_false] at hc
  have h4 : c = ' ' ∨ c = '\t' ∨ c = '\x0d' ∨ c = '\n' := by
    simpa [Char.isWhitespace, Bool.or_eq_true, decide_eq_true_eq, or_assoc] using hc
  rcases h4 with rfl | rfl | rfl | rfl <;> exact absurd h (by decide)

theorem isDigit_ne_sign (c : Char) (h : c.isDigit = true) :
    c ≠ '-' ∧ c ≠ '_' ∧ c ≠ '+' := by
  refine ⟨?_, ?_, ?_⟩ <;> rintro rfl <;> exact absurd h (by decide)

theorem pyDigitsRest_all (l : List Char) (h : ∀ c ∈ l, c.isDigit = true) :
    pyDigitsRest l = true := by
  induction l with
  | nil => rfl
  | cons c cs ih =>
    cases cs with
    | nil =>
      rw [show pyDigitsRest [c] = c.isDigit from rfl]
      exact h c (List.mem_cons_self _ _)
    | cons d ds =>
      rw [show pyDigitsRest (c :: d :: ds) =
        (if c.isDigit then pyDigitsRest (d :: ds)
         else if c = '_' then d.isDigit && pyDigitsRest (d :: ds) else false) from rfl]
      rw [h c (List.mem_cons_self _ _)]
      simpa using ih (fun x hx => h x (List.mem_cons_of_mem _ hx))

theorem filter_underscore_digits (l : List Char) (h : ∀ c ∈ l, c.isDigit = true) :
    l.filter (fun x => x ≠ '_') = l := by
  apply List.filter_eq_self.mpr
  intro a ha
  simp only [decide_eq_true_eq]
  exact (isDigit_ne_sign a (h a ha)).2.1

theorem pyNatParse_digits (l : List Char) (h : ∀ c ∈ l, c.isDigit = true)
    (hne : l ≠ []) : pyNatParse l = some (digitsVal l) := by
  cases l with
  | nil => exact absurd rfl hne
  | cons c cs =>
    simp only [pyNatParse]
    rw [h c (List.mem_cons_self _ _),
      pyDigitsRest_all cs (fun x hx => h x (List.mem_cons_of_mem _ hx)),
      filter_underscore_digits _ h]
    rfl

theorem pyInt_digits (l : List Char) (h : ∀ c ∈ l, c.isDigit = true)
    (hne : l ≠ []) : pyInt l = some (Int.ofNat (digitsVal l)) := by
  cases l with
  | nil => exact absurd rfl hne
  | cons c cs =>
    have hs := isDigit_ne_sign c (h c (List.mem_cons_self _ _))
    simp only [pyInt]
    rw [if_neg hs.2.2, if_neg hs.1,
      pyNatParse_digits _ h (by simp)]
    rfl

theorem parsePart_token (ds : List Char) (u : Char) (hds : ∀ c ∈ ds, c.isDigit = true)
    (hne : ds ≠ []) (hu : isUnit u = true) :
    parsePart (ds ++ [u]) = some (Int.ofNat (digitsVal ds) * unitVal u) := by
  have hnd : ∀ w : Char, isUnit w = true → w ≠ u → pyContains (ds ++ [u]) w = false := by
    intro w hw hwu
    apply pyContains_eq_false
    intro hmem
    rcases List.mem_append.mp hmem with hm | hm
    · rw [isDigit_not_unit w (hds w hm)] at hw
      exact Bool.false_ne_true hw
    · rw [List.mem_singleton] at hm
      exact hwu hm
  have hctu : pyContains (ds ++ [u]) u = true :=
    pyContains_eq_true _ _ (List.mem_append.mpr (Or.inr (List.mem_singleton.mpr rfl)))
  have hfil : (ds ++ [u]).filter (fun x => x ≠ u) = ds := by
    rw [List.filter_append]
    have h1 : ds.filter (fun x => x ≠ u) = ds := by
      apply List.filter_eq_self.mpr
      intro a ha
      simp only [decide_eq_true_eq]
      intro heq
      subst heq
      rw [isDigit_not_unit a (hds a ha)] at hu
      exact Bool.false_ne_true hu
    have h2 : [u].filter (fun x => x ≠ u) = ([] : List Char) := by simp
    rw [h1, h2, List.append_nil]
  have hu4 : u = 'd' ∨ u = 'h' ∨ u = 'm' ∨ u = 's' := by
    simpa [isUnit, Bool.or_eq_true, decide_eq_true_eq, or_assoc] using hu
  unfold parsePart
  rcases hu4 with rfl | rfl | rfl | rfl
  · rw [hctu, hfil, pyInt_digits ds hds hne]
    simp [unitVal]
  · rw [hnd 'd' (by decide) (by decide), hctu, hfil, pyInt_digits ds hds hne]
    simp [unitVal]
  · rw [hnd 'd' (by decide) (by decide), hnd 'h' (by decide) (by decide), hctu, hfil,
      pyInt_digits ds hds hne]
    simp [unitVal]
  · rw [hnd 'd' (by decide) (by decide), hnd 'h' (by decide) (by decide),
      hnd 'm' (by decide) (by decide), hctu, hfil, pyInt_digits ds hds hne]
    simp [unitVal]

theorem sumParts_tokens (ts : List (List Char × Char))
    (h : ∀ p ∈ ts, p.1 ≠ [] ∧ (∀ c ∈ p.1, c.isDigit = true) ∧ isUnit p.2 = true) :
    sumParts (ts.map (fun p => p.1 ++ [p.2])) =
      some ((ts.map (fun p => Int.ofNat (digitsVal p.1) * unitVal p.2)).sum) := by
  induction ts with
  | nil => rfl
  | cons p ps ih =>
    simp only [List.map_cons]
    rw [sumParts_cons]
    obtain ⟨h1, h2, h3⟩ := h p (List.mem_cons_self _ _)
    rw [parsePart_token p.1 p.2 h2 h1 h3,
      ih (fun q hq => h q (List.mem_cons_of_mem _ hq))]
    simp [List.sum_cons]

/-- Claim C2: a string of whitespace-separated tokens, each a
non-negative decimal integer immediately followed by one unit letter
(`d` 86400, `h` 3600, `m` 60, `s` 1), parses to the sum of the tokens'
values; in particular the five spec examples hold. -/
theorem c2_token_sum :
    (∀ ts : List (List Char × Char),
      (∀ p ∈ ts, p.1 ≠ [] ∧ (∀ c ∈ p.1, c.isDigit = true) ∧ isUnit p.2 = true) →
      parse_duration_to_seconds (joinSp (ts.map (fun p => p.1 ++ [p.2]))) =
        (ts.map (fun p => Int.ofNat (digitsVal p.1) * unitVal p.2)).sum) ∧
    parse_duration_to_seconds "1h 30m".toList = 5400 ∧
    parse_duration_to_seconds "45m".toList = 2700 ∧
    parse_duration_to_seconds "2d 3h".toList = 183600 ∧
    parse_duration_to_seconds "".toList = 0 ∧
    parse_duration_to_seconds "garbage".toList = 0 := by
  refine ⟨?_, by decide, by decide, by decide, by decide, by decide⟩
  intro ts h
  have htok : ∀ t ∈ ts.map (fun p => p.1 ++ [p.2]),
      t ≠ [] ∧ ∀ c ∈ t, c.isWhitespace = false := by
    intro t ht
    rcases List.mem_map.mp ht with ⟨p, hp, rfl⟩
    obtain ⟨h1, h2, h3⟩ := h p hp
    refine ⟨by simp, ?_⟩
    intro c hc
    rcases List.mem_append.mp hc with hm | hm
    · exact isDigit_not_ws c (h2 c hm)
    · rw [List.mem_singleton] at hm
      have h4 : p.2 = 'd' ∨ p.2 = 'h' ∨ p.2 = 'm' ∨ p.2 = 's' := by
        simpa [isUnit, Bool.or_eq_true, decide_eq_true_eq, or_assoc] using h3
      rcases h4 with he | he | he | he <;> rw [hm, he] <;> rfl
  unfold parse_duration_to_seconds parseTokens
  rw [pyStrip_joinSp _ htok, splitWs_joinSp _ htok, sumParts_tokens ts h]
  rfl

theorem c2_witness :
    (∀ p ∈ [("1".toList, 'h'), ("30".toList, 'm')],
      p.1 ≠ [] ∧ (∀ c ∈ p.1, c.isDigit = true) ∧ isUnit p.2 = true) ∧
    parse_duration_to_seconds
      (joinSp ([("1".toList, 'h'), ("30".toList, 'm')].map (fun p => p.1 ++ [p.2]))) =
      ([("1".toList, 'h'), ("30".toList, 'm')].map
        (fun p => Int.ofNat (digitsVal p.1) * unitVal p.2)).sum :=
  ⟨by decide, c2_token_sum.1 [("1".toList, 'h'), ("30".toList, 'm')] (by decide)⟩

/-! ### The formatter's output contains no unit letter the parser knows -/

theorem digitChar_isDigit : ∀ d : Nat, (digitChar d).isDigit = true := by
  intro d
  rcases d with _|_|_|_|_|_|_|_|_|d <;> rfl

theorem natReprAux_digits : ∀ fuel n : Nat, ∀ c ∈ natReprAux fuel n, c.isDigit = true := by
  intro fuel
  induction fuel with
  | zero => intro n c hc; simp [natReprAux] at hc
  | succ fuel ih =>
    intro n c hc
    rw [show natReprAux (fuel + 1) n =
      (if n < 10 then [digitChar n]
       else natReprAux fuel (n / 10) ++ [digitChar (n % 10)]) from rfl] at hc
    split_ifs at hc
    · rw [List.mem_singleton] at hc
      subst hc
      exact digitChar_isDigit n
    · rcases List.mem_append.mp hc with hm | hm
      · exact ih (n / 10) c hm
      · rw [List.mem_singleton] at hm
        subst hm
        exact digitChar_isDigit _

theorem natRepr_digits (n : Nat) (c : Char) (hc : c ∈ natRepr n) : c.isDigit = true :=
  natReprAux_digits (n + 1) n c hc

theorem intRepr_chars (i : Int) (c : Char) (hc : c ∈ intRepr i) :
    c = '-' ∨ c.isDigit = true := by
  unfold intRepr at hc
  split_ifs at hc
  · rcases List.mem_cons.mp hc with rfl | hm
    · exact Or.inl rfl
    · exact Or.inr (natRepr_digits _ _ hm)
  · exact Or.inr (natRepr_digits _ _ hc)

theorem intRepr_no_unit (i : Int) (c : Char) (hc : c ∈ intRepr i) : isUnit c = false := by
  rcases intRepr_chars i c hc with rfl | hd
  · rfl
  · exact isDigit_not_unit c hd

theorem format_chars_no_unit (q : PyFloat) (c : Char)
    (hc : c ∈ format_seconds_to_duration q) : isUnit c = false := by
  unfold format_seconds_to_duration at hc
  split_ifs at hc
  · rcases List.mem_append.mp hc with hm | hm
    · exact intRepr_no_unit _ c hm
    · have h1 : c = '초' := by simpa using hm
      subst h1; rfl
  · rcases List.mem_append.mp hc with hm | hm
    · exact intRepr_no_unit _ c hm
    · have h1 : c = '분' := by simpa using hm
      subst h1; rfl
  · rcases List.mem_append.mp hc with hm | hm
    · rcases List.mem_append.mp hm with hm2 | hm2
      · rcases List.mem_append.mp hm2 with hm3 | hm3
        · exact intRepr_no_unit _ c hm3
        · have h1 : c = '시' ∨ c = '간' ∨ c = ' ' := by simpa using hm3
          rcases h1 with rfl | rfl | rfl <;> rfl
      · exact intRepr_no_unit _ c hm2
    · have h1 : c = '분' := by simpa using hm
      subst h1; rfl
  · rcases List.mem_append.mp hc with hm | hm
    · rcases List.mem_append.mp hm with hm2 | hm2
      · rcases List.mem_append.mp hm2 with hm3 | hm3
        · exact intRepr_no_unit _ c hm3
        · have h1 : c = '일' ∨ c = ' ' := by simpa using hm3
          rcases h1 with rfl | rfl <;> rfl
      · exact intRepr_no_unit _ c hm2
    · have h1 : c = '시' ∨ c = '간' := by simpa using hm
      rcases h1 with rfl | rfl <;> rfl

theorem sumParts_all_zero (ts : List (List Char)) (h : ∀ t ∈ ts, parsePart t = some 0) :
    sumParts ts = some 0 := by
  induction ts with
  | nil => rfl
  | cons t ts ih =>
    rw [sumParts_cons, h t (List.mem_cons_self _ _),
      ih (fun u hu => h u (List.mem_cons_of_mem _ hu))]
    simp

theorem parse_no_units (s : List Char) (h : ∀ c ∈ s, isUnit c = false) :
    parse_duration_to_seconds s = 0 := by
  unfold parse_duration_to_seconds parseTokens
  rw [sumParts_all_zero _
    (fun t ht => parsePart_no_unit t (fun c hc => h c (parse_chars s t ht c hc)))]
  rfl

/-- Claim C7, amended: the round-trip never lands in the bucket of `x`
unless that bucket is 0, because it is constantly 0:
`format_seconds_to_duration` writes its units as the Korean words 초, 분,
시간, 일, none of which contains a unit letter the parser recognises, so
parsing any formatted value yields 0. -/
theorem c7_roundtrip_is_zero (q : PyFloat) :
    parse_duration_to_seconds (format_seconds_to_duration q) = 0 :=
  parse_no_units _ (fun c hc => format_chars_no_unit q c hc)

/-- Claim C7, counterexample: at x = 5400 the formatter produces
`1시간 30분`, the parser returns 0 on it, and the two-largest-unit bucket
of the round-trip (0) differs from the bucket of x (5400). -/
theorem c7_counterexample :
    format_seconds_to_duration (PyFloat.ofInt 5400) = "1시간 30분".toList ∧
    parse_duration_to_seconds (format_seconds_to_duration (PyFloat.ofInt 5400)) = 0 ∧
    specTwoUnitTrunc (PyFloat.ofInt 5400) = 5400 ∧
    specTwoUnitTrunc (PyFloat.ofInt
        (parse_duration_to_seconds (format_seconds_to_duration (PyFloat.ofInt 5400)))) ≠
      specTwoUnitTrunc (PyFloat.ofInt 5400) := by
  decide

/-! ### The average-duration filter -/

theorem avgDur_fold (l : List (Option (List Char))) :
    ∀ t0 : Int, ∀ c0 : Nat, l.foldl avgDurStep (t0, c0) =
      (t0 + (qualifyingDurations l).sum, c0 + (qualifyingDurations l).length) := by
  induction l with
  | nil => intro t0 c0; simp [qualifyingDurations]
  | cons cell l ih =>
    intro t0 c0
    cases cell with
    | none =>
      rw [List.foldl_cons, show avgDurStep (t0, c0) none = (t0, c0) from rfl, ih]
      simp [qualifyingDurations]
    | some s =>
      have hstep : avgDurStep (t0, c0) (some s) =
          if s ≠ [] then
            (if 0 < parse_duration_to_seconds s
             then (t0 + parse_duration_to_seconds s, c0 + 1) else (t0, c0))
          else (t0, c0) := rfl
      have hq : qualifyingDurations (some s :: l) =
          (if 0 < parse_duration_to_seconds s
           then parse_duration_to_seconds s :: qualifyingDurations l
           else qualifyingDurations l) := by
        unfold qualifyingDurations
        rw [List.filterMap_cons]
        by_cases hv : 0 < parse_duration_to_seconds s
        · simp [if_pos hv]
        · simp [if_neg hv]
      rw [List.foldl_cons, hstep, hq]
      by_cases hs : s = []
      · have hnp : ¬ 0 < parse_duration_to_seconds s := by
          subst hs
          decide
        rw [if_neg (by simpa using hs), if_neg hnp, ih]
      · by_cases hv : 0 < parse_duration_to_seconds s
        · rw [if_pos hs, if_pos hv, if_pos hv, ih]
          simp only [List.sum_cons, List.length_cons, Prod.mk.injEq]
          constructor <;> omega
        · rw [if_pos hs, if_neg hv, if_neg hv, ih]

/-- Claim C8: `calculate_average_duration` filters its input to the
entries that are present and parse to a strictly positive second count,
averages exactly those entries and formats the result, returning the
`N/A` sentinel when no entry qualifies; on
`["1h", "30m", "", "2h 15m"]` it averages the three parseable entries,
(3600 + 1800 + 8100) / 3 = 4500 seconds, and formats that as one hour
fifteen minutes, the empty entry counted in neither numerator nor
denominator. -/
theorem c8_average_duration :
    (∀ l : List (Option (List Char)),
      calculate_average_duration l =
        if qualifyingDurations l = [] then "N/A".toList
        else format_seconds_to_duration
          ⟨(qualifyingDurations l).sum, (qualifyingDurations l).length⟩) ∧
    qualifyingDurations [some "1h".toList, some "30m".toList, some "".toList,
      some "2h 15m".toList] = [3600, 1800, 8100] ∧
    calculate_average_duration [some "1h".toList, some "30m".toList, some "".toList,
      some "2h 15m".toList] = format_seconds_to_duration (PyFloat.ofInt 4500) ∧
    format_seconds_to_duration (PyFloat.ofInt 4500) = "1시간 15분".toList := by
  refine ⟨?_, by decide, by decide, by decide⟩
  intro l
  have hrw : calculate_average_duration l =
      (if 0 < (l.foldl avgDurStep (0, 0)).2
       then format_seconds_to_duration
         ⟨(l.foldl avgDurStep (0, 0)).1, (l.foldl avgDurStep (0, 0)).2⟩
       else "N/A".toList) := rfl
  rw [hrw, avgDur_fold l 0 0]
  cases hq : qualifyingDurations l with
  | nil => simp
  | cons a q => simp

/-! ### The severity-band partition -/

theorem keywords_pairwise_disjoint (x : List Char) :
    ¬(x ∈ criticalKeywords ∧ x ∈ warningKeywords) ∧
    ¬(x ∈ criticalKeywords ∧ x ∈ infoKeywords) ∧
    ¬(x ∈ warningKeywords ∧ x ∈ infoKeywords) := by
  refine ⟨fun ⟨h1, h2⟩ => ?_, fun ⟨h1, h2⟩ => ?_, fun ⟨h1, h2⟩ => ?_⟩
  · simp only [criticalKeywords, List.mem_cons, List.not_mem_nil, or_false] at h1
    rcases h1 with rfl | rfl | rfl | rfl | rfl <;> exact absurd h2 (by decide)
  · simp only [criticalKeywords, List.mem_cons, List.not_mem_nil, or_false] at h1
    rcases h1 with rfl | rfl | rfl | rfl | rfl <;> exact absurd h2 (by decide)
  · simp only [warningKeywords, List.mem_cons, List.not_mem_nil, or_false] at h1
    rcases h1 with rfl | rfl | rfl | rfl <;> exact absurd h2 (by decide)

theorem bands_pairwise_disjoint (cell : Option (List Char)) :
    (inBand criticalKeywords cell = true →
      inBand warningKeywords cell = false ∧ inBand infoKeywords cell = false) ∧
    (inBand warningKeywords cell = true →
      inBand criticalKeywords cell = false ∧ inBand infoKeywords cell = false) ∧
    (inBand infoKeywords cell = true →
      inBand criticalKeywords cell = false ∧ inBand warningKeywords cell = false) := by
  cases cell with
  | none => exact ⟨fun h => by simp [inBand] at h, fun h => by simp [inBand] at h,
      fun h => by simp [inBand] at h⟩
  | some s =>
    simp only [inBand, decide_eq_true_eq, decide_eq_false_iff_not]
    obtain ⟨d1, d2, d3⟩ := keywords_pairwise_disjoint (pyLower s)
    exact ⟨fun h => ⟨fun h2 => d1 ⟨h, h2⟩, fun h2 => d2 ⟨h, h2⟩⟩,
      fun h => ⟨fun h2 => d1 ⟨h2, h⟩, fun h2 => d3 ⟨h, h2⟩⟩,
      fun h => ⟨fun h2 => d2 ⟨h2, h⟩, fun h2 => d3 ⟨h2, h⟩⟩⟩

theorem countP_partition (p1 p2 p3 : Option (List Char) → Bool)
    (hx : ∀ a, (p1 a = true → p2 a = false ∧ p3 a = false) ∧
      (p2 a = true → p3 a = false)) :
    ∀ l : List (Option (List Char)),
      l.countP p1 + l.countP p2 + l.countP p3 +
        l.countP (fun a => !(p1 a || p2 a || p3 a)) = l.length := by
  intro l
  induction l with
  | nil => rfl
  | cons a l ih =>
    simp only [List.countP_cons, List.length_cons]
    have h1 := (hx a).1
    have h2 := (hx a).2
    cases hb1 : p1 a <;> cases hb2 : p2 a <;> cases hb3 : p3 a <;> simp_all <;> omega

/-- Claim C1: the four severity bands of `generate_report` — critical
(severity, lower-cased, among disaster, high, fatal, critical, error),
warning (among average, warning, major, medium), informational (among
the remaining recognized severities information, info, low,
not classified) and unclassified (severity column absent or value
unrecognized) — are pairwise disjoint on every cell, and their counts
sum exactly to the total row count on every well-formed EventSet. -/
theorem c1_severity_partition (es : EventSet)
    (hlen : ∀ col, es.severityCol = some col → col.length = es.nRows) :
    (∀ cell : Option (List Char),
      (inBand criticalKeywords cell = true →
        inBand warningKeywords cell = false ∧ inBand infoKeywords cell = false) ∧
      (inBand warningKeywords cell = true →
        inBand criticalKeywords cell = false ∧ inBand infoKeywords cell = false) ∧
      (inBand infoKeywords cell = true →
        inBand criticalKeywords cell = false ∧ inBand warningKeywords cell = false)) ∧
    critical_events es + warning_events es + info_events es + unclassified_events es
      = es.nRows := by
  refine ⟨bands_pairwise_disjoint, ?_⟩
  unfold critical_events warning_events info_events unclassified_events
  cases hcol : es.severityCol with
  | none => simp
  | some col =>
    rw [← hlen col hcol]
    exact countP_partition _ _ _
      (fun a => ⟨fun h => (bands_pairwise_disjoint a).1 h,
        fun h => ((bands_pairwise_disjoint a).2.1 h).2⟩) col

theorem c1_witness :
    critical_events exampleSeveritySet + warning_events exampleSeveritySet +
      info_events exampleSeveritySet + unclassified_events exampleSeveritySet = 4 :=
  (c1_severity_partition exampleSeveritySet
    (fun col h => by injection h with h2; subst h2; decide)).2

/-! ### Report generation: determinism and the two division faults -/

/-- Claim C9, amended: the CSV summary table is a pure function of the
EventSet — two runs at any two generation times produce the identical
table — while the report text embeds `datetime.now()` in its header, so
only runs sharing the generation time produce identical text. -/
theorem c9_table_time_independent (t1 t2 : PyDateTime) (es : EventSet) :
    (generate_report t1 es).map (fun c => c.2) =
      (generate_report t2 es).map (fun c => c.2) := by
  unfold generate_report
  cases reportCore es <;> rfl

/-- Claim C9, counterexample: the same EventSet reported at two
different generation times yields two different outputs, because the
report text's header carries the timestamp. -/
theorem c9_counterexample :
    generate_report ⟨2026, 1, 1, 0, 0, 0⟩ demoEventSet ≠
      generate_report ⟨2026, 1, 2, 0, 0, 0⟩ demoEventSet := by
  decide

/-- Claim C4: with zero rows, `generate_report` does not resolve
percentages to a placeholder or signal "nothing to report" — the
severity-percentage expression divides `critical_events` by the zero
total (`app.py` line 536) and the uncaught `ZeroDivisionError` aborts
report generation (`none`). -/
theorem c4_zero_rows_fault :
    generate_report ⟨2026, 1, 1, 0, 0, 0⟩ zeroRowEventSet = none ∧
      zeroRowEventSet.nRows = 0 ∧
      pyDiv (critical_events zeroRowEventSet : Int) zeroRowEventSet.nRows = none := by
  decide

/-- Claim C5: with the Host column absent (zero distinct hosts),
`generate_report` does not report average events per host as "not
applicable" — it divides the total by `unique_hosts = 0`
(`app.py` line 544) and the uncaught `ZeroDivisionError` aborts report
generation (`none`). -/
theorem c5_missing_host_fault :
    generate_report ⟨2026, 1, 1, 0, 0, 0⟩ noHostEventSet = none ∧
      unique_hosts noHostEventSet = 0 ∧
      pyDiv (noHostEventSet.nRows : Int) (unique_hosts noHostEventSet) = none := by
  decide

end ItoApp
